import Mathlib

set_option maxRecDepth 100000

/-!
Shallow embedding of `crates/proofs/src/base/math/decimal.rs`: the
precision-safe decimal normalization engine of the proof-of-sql crate.

The concrete scalar field used by the crate's tests is the Curve25519
(Ristretto) scalar field of prime order
`7237005577332262213973186563042994240857116359379907606001950938285454250989`;
we fix `Scalar` to `ZMod` of that order.  Machine integers (`u8`, `i8`) are
modelled as `Nat`/`Int` with explicit wrap/saturation helpers mirroring the
casts that appear in the source.  Fallible functions return an `RResult`
(mirroring Rust's `Result`); functions that can abort (panic) additionally
return `Option`, with `none` standing for the abort.

The opaque literal type `DecimalUnknown` (exposing `precision()`, `scale()`
and `value()`) is produced by the external SQL parser and is not part of the
sources under verification; it is modelled from the spec below.
-/

/-- The prime order of the Curve25519/Ristretto scalar field, the order of the
concrete `Scalar` instance (`Curve25519Scalar`) used by the crate. -/
def ell : Nat := 7237005577332262213973186563042994240857116359379907606001950938285454250989

/-- The field-element type `S`: an element of the fixed prime-order field. -/
abbrev Scalar := ZMod ell

/-- Interpretation of Rust `x as u8` for an `i8` value `x`
(two's-complement wrap). -/
def asU8 (x : Int) : Nat := (x % 256).toNat

/-- Wrapping `u8` subtraction `a - b` (release-mode semantics of `-` on `u8`;
for operands that do not underflow this is plain subtraction). -/
def u8wsub (a b : Nat) : Nat := (a + 256 - b) % 256

/-- Saturating `u8` addition, `u8::saturating_add`. -/
def u8satAdd (a b : Nat) : Nat := min (a + b) 255

/-- Wrap an integer into `i8` range (release-mode two's-complement semantics
of `i8` arithmetic; the identity on `[-128, 127]`). -/
def i8wrap (x : Int) : Int := (x + 128) % 256 - 128

/-- Interpretation of Rust `p as i8` for a `u8` value `p`. -/
def i8ofU8 (x : Nat) : Int := if 127 < x then (x : Int) - 256 else (x : Int)

/-- Rust's `Result`, with the error type first. -/
inductive RResult (ε α : Type) where
  | ok (a : α)
  | err (e : ε)
deriving DecidableEq

/-- Sequencing of fallible computations (the `?` operator). -/
def RResult.bind {ε α β : Type} : RResult ε α → (α → RResult ε β) → RResult ε β
  | .ok a, f => f a
  | .err e, _ => .err e

/-- Whether a `Result` is `Ok`. -/
def RResult.isOk {ε α : Type} : RResult ε α → Bool
  | .ok _ => true
  | .err _ => false

/-- The two error kinds of `ConversionError` used by this module. -/
inductive ConversionError where
  | PrecisionParseError (msg : String)
  | DecimalRoundingError (msg : String)
deriving DecidableEq

/-- The `Sign` type from `num_bigint` (`NoSign` is the sign of zero). -/
inductive Sign where
  | minus
  | noSign
  | plus
deriving DecidableEq

/-- Constant `pub(crate) const MAX_SUPPORTED_PRECISION: u8 = 75;`. -/
def MAX_SUPPORTED_PRECISION : Nat := 75

/-- Struct `pub struct Precision(u8);` — limit-enforced precision. -/
structure Precision where
  value : Nat
deriving DecidableEq

/-- Constructor `Precision::new`: rejects `value > MAX_SUPPORTED_PRECISION || value == 0`. -/
def Precision.new (value : Nat) : RResult String Precision :=
  if MAX_SUPPORTED_PRECISION < value ∨ value = 0 then
    .err "Precision must be larger than zero and less than 76"
  else
    .ok ⟨value⟩

/-- The custom `Deserialize` impl for `Precision`: deserialize the raw `u8`,
then route it through `Precision::new`, surfacing the constructor's error
message via `serde::de::Error::custom`. The argument is the raw `u8` produced
by the deserializer. -/
def Precision.deserialize (value : Nat) : RResult String Precision :=
  Precision.new value

/-- Struct `pub struct Decimal<S: Scalar>` with fields value, precision, scale. -/
structure Decimal where
  value : Scalar
  precision : Precision
  scale : Int
deriving DecidableEq

/-- The result of the loop `for _ in 0..k { res *= ten }` started at `s`. -/
def scalePow (s : Scalar) : Nat → Scalar
  | 0 => s
  | k + 1 => scalePow s k * 10

/-- Function `scale_scalar`: scale a scalar by the given scale factor (an `i8`);
negative scaling is not allowed, and overflow is not checked (the field
wraps). -/
def scaleScalar (s : Scalar) (scale : Int) : RResult ConversionError Scalar :=
  if scale < 0 then
    .err (.DecimalRoundingError "Scale factor must be non-negative")
  else
    .ok (scalePow s scale.toNat)

/-- Method `Decimal::with_precision_and_scale`. The source's let-binding
`scale_factor = new_scale - self.scale` is inlined at its three use sites; it
is `i8` arithmetic (wrapping in release mode), and
`self.precision.value() + scale_factor as u8` is `u8` arithmetic (again
wrapping); on in-range inputs both wraps are the identity. -/
def Decimal.withPrecisionAndScale (d : Decimal) (newPrecision : Precision)
    (newScale : Int) : RResult ConversionError Decimal :=
  if i8wrap (newScale - d.scale) < 0 ∨
      newPrecision.value
        < (d.precision.value + asU8 (i8wrap (newScale - d.scale))) % 256 then
    .err (.DecimalRoundingError "Scale factor must be non-negative")
  else
    (scaleScalar d.value (i8wrap (newScale - d.scale))).bind
      fun s => .ok ⟨s, newPrecision, newScale⟩

/-- Method `Decimal::from_i64` (minimal precision 19). Here `19 + scale as u8` is `u8`
arithmetic; the cast is only reached when `scale ≥ 0`, where it cannot wrap. -/
def Decimal.fromI64 (value : Int) (precision : Precision) (scale : Int) :
    RResult ConversionError Decimal :=
  if precision.value < 19 then
    .err (.DecimalRoundingError "Precision must be at least 19")
  else if scale < 0 ∨ precision.value < (19 + asU8 scale) % 256 then
    .err (.DecimalRoundingError "Can not scale down a decimal")
  else
    (scaleScalar (value : Scalar) scale).bind fun s => .ok ⟨s, precision, scale⟩

/-- Method `Decimal::from_i128` (minimal precision 39; the error message in the
source really does say 19). -/
def Decimal.fromI128 (value : Int) (precision : Precision) (scale : Int) :
    RResult ConversionError Decimal :=
  if precision.value < 39 then
    .err (.DecimalRoundingError "Precision must be at least 19")
  else if scale < 0 ∨ precision.value < (39 + asU8 scale) % 256 then
    .err (.DecimalRoundingError "Can not scale down a decimal")
  else
    (scaleScalar (value : Scalar) scale).bind fun s => .ok ⟨s, precision, scale⟩

/-- Modelled from the spec: the raw decimal literal type `DecimalUnknown`
(crate `proofs_sql`, module `decimal_unknown`, not among the sources under
verification).  The spec describes it as an opaque triple produced by the
external SQL parser: digit text plus implied precision and implied scale,
exposing `precision()`, `scale()` and `value()`.  `value()` is the text the
decoder hands to `BigInt::from_str` after conceptually removing the decimal
point, so it is the optional minus sign followed by the digit characters; we
represent it as the `neg` flag plus the list of digit values (most
significant first).  `precision` and `scale` are carried as separate fields;
the consistency a parser-produced literal enjoys is captured by
`DecimalUnknown.wf` below. -/
structure DecimalUnknown where
  neg : Bool
  digits : List Nat
  precision : Nat
  scale : Int
deriving DecidableEq

/-- Length `value().len()`: the length of the point-removed literal text — one
character per digit, plus one for the minus sign when present. -/
def DecimalUnknown.valueLen (d : DecimalUnknown) : Nat :=
  d.digits.length + (if d.neg then 1 else 0)

/-- The natural number denoted by a decimal digit string. -/
def digitsToNat (l : List Nat) : Nat := l.foldl (fun a d => 10 * a + d) 0

/-- The signed integer denoted by the literal's point-removed text: its
mathematical value is `mathNum d / 10 ^ d.scale`. -/
def DecimalUnknown.mathNum (d : DecimalUnknown) : Int :=
  (if d.neg then -1 else 1) * digitsToNat d.digits

/-- Modelled from the spec: consistency of a parser-produced literal.  The
digit characters are decimal digits and nonempty (the text matches
`(-)?digits(.digits)?`), the implied precision counts the digit characters
(the crate's own tests document that leading zeros count toward precision,
and that trailing fractional zeros are already dropped by the parser), and
the implied scale is a nonnegative `i8` counting at most all digits. -/
def DecimalUnknown.wf (d : DecimalUnknown) : Prop :=
  (∀ x ∈ d.digits, x < 10) ∧ d.digits ≠ [] ∧
    d.precision = d.digits.length ∧
    0 ≤ d.scale ∧ d.scale ≤ 127 ∧ d.scale.toNat ≤ d.digits.length

instance (d : DecimalUnknown) : Decidable d.wf := by
  unfold DecimalUnknown.wf; infer_instance

/-- The number of `'0'` characters appended to the literal text:
`min((scale.unwrap_or(0) as u8).saturating_sub(decimal.scale() as u8),
75_u8.saturating_sub(value.len() as u8))`.  `Nat` subtraction is exactly
`saturating_sub`; the `value.len()` cast to `u8` is guarded by the caller
(`decimal_string_to_scaled_limbs` aborts first when the length exceeds 255). -/
def zerosToAppend (d : DecimalUnknown) (scale : Option Int) : Nat :=
  min (asU8 (scale.getD 0) - asU8 d.scale) (75 - d.valueLen)

/-- The literal text extended with the appended zeros (point removed). -/
def appendedDigits (d : DecimalUnknown) (scale : Option Int) : List Nat :=
  d.digits ++ List.replicate (zerosToAppend d scale) 0

/-- The magnitude of the `BigInt` parsed from the extended text. -/
def appendedMagnitude (d : DecimalUnknown) (scale : Option Int) : Nat :=
  digitsToNat (appendedDigits d scale)

/-- Expression `integer_parts.into_iter().chain(repeat(0)).take(4)`: the little-endian
limb list padded with zeros, truncated to exactly 4 words. -/
def padTake4 (l : List Nat) : List Nat := (l ++ List.replicate 4 0).take 4

/-- Fuel-driven extraction of little-endian base-`2^64` digits; the fuel
bounds the recursion depth and is immaterial whenever it is at least the
number of digits (see `u64DigitsAux_getD`). -/
def u64DigitsAux : Nat → Nat → List Nat
  | _, 0 => []
  | 0, _ + 1 => []
  | fuel + 1, n + 1 => ((n + 1) % 2 ^ 64) :: u64DigitsAux fuel ((n + 1) / 2 ^ 64)

/-- Magnitude part of `BigInt::to_u64_digits`: the little-endian base-`2^64`
digits of `n` (empty for `n = 0`). -/
def toU64Digits (n : Nat) : List Nat := u64DigitsAux n n

/-- Function `decimal_string_to_scaled_limbs`: append the computed number of zeros to
the literal text, parse it as a big integer, and return its magnitude as
exactly 4 little-endian 64-bit limbs together with its sign.  `none` models
an abort: `value.len().try_into::<u8>().unwrap()` aborts when the text is
longer than 255 characters, `BigInt::from_str(..).expect(..)` aborts on
malformed (here: empty) text, and the final `try_into::<[u64; 4]>().expect(..)`
aborts when the limb vector does not have length 4. -/
def decimalStringToScaledLimbs (d : DecimalUnknown) (scale : Option Int) :
    Option (List Nat × Sign) :=
  if 255 < d.valueLen then none
  else if (appendedDigits d scale).isEmpty then none
  else
    let n := appendedMagnitude d scale
    let limbs := padTake4 (toU64Digits n)
    if limbs.length = 4 then
      some (limbs, if n = 0 then Sign.noSign else if d.neg then Sign.minus else Sign.plus)
    else none

/-- Function `get_limbs_and_sign`: determines how to safely scale an incoming decimal.
The branch structure and comparisons mirror the source; `scale as u8 -
d.scale() as u8` is `u8` subtraction (wrapping in release mode) and
`d.precision() + scale as u8` is `u8` addition (likewise), both the plain
operations on the inputs reachable past the earlier checks.  The outer
`Option` propagates the decoder's abort. -/
def getLimbsAndSign (d : DecimalUnknown) (scale : Int) :
    Option (RResult ConversionError (List Nat × Sign)) :=
  if MAX_SUPPORTED_PRECISION < d.precision then
    some (.err (.PrecisionParseError
      "Error while attempting decimal match: max precision exceeded"))
  else if scale < d.scale then
    some (.err (.DecimalRoundingError
      ("matching decimal would cause precision overflow: incoming scale() = "
        ++ toString d.scale ++ " is greater than db scale = " ++ toString scale)))
  else if d.scale < scale ∧
      u8satAdd d.precision (u8wsub (asU8 scale) (asU8 d.scale))
        ≤ MAX_SUPPORTED_PRECISION then
    (decimalStringToScaledLimbs d (some scale)).map .ok
  else if MAX_SUPPORTED_PRECISION < (d.precision + asU8 scale) % 256 ∧
      d.scale < scale then
    some (.err (.PrecisionParseError
      ("Scaling factor " ++ toString (i8wrap (i8ofU8 d.precision + scale))
        ++ " exceeds maximum allowed precision")))
  else
    (decimalStringToScaledLimbs d none).map .ok

/-- The value of a little-endian 64-bit limb list. -/
def limbsToNat (l : List Nat) : Nat := l.foldr (fun w acc => w + 2 ^ 64 * acc) 0

/-- Function `match_decimal`: convert the limbs into a `Scalar` and account for the
sign. -/
def matchDecimal (d : DecimalUnknown) (scale : Int) :
    Option (RResult ConversionError Scalar) :=
  match getLimbsAndSign d scale with
  | none => none
  | some (.err e) => some (.err e)
  | some (.ok (limbs, sign)) =>
      let scalar : Scalar := (limbsToNat limbs : Nat)
      some (.ok (match sign with
        | Sign.minus => -scalar
        | _ => scalar))

/-! ### Arithmetic facts about the machine-integer helpers -/

lemma asU8_eq_toNat {x : Int} (h0 : 0 ≤ x) (h : x < 256) : asU8 x = x.toNat := by
  unfold asU8; omega

lemma i8wrap_eq {x : Int} (h0 : -128 ≤ x) (h : x ≤ 127) : i8wrap x = x := by
  unfold i8wrap; omega

lemma u8wsub_eq {a b : Nat} (hba : b ≤ a) (ha : a ≤ 255) : u8wsub a b = a - b := by
  unfold u8wsub; omega

lemma scalePow_eq (s : Scalar) (k : Nat) : scalePow s k = s * 10 ^ k := by
  induction k with
  | zero => simp [scalePow]
  | succ k ih => rw [scalePow, ih, pow_succ, mul_assoc]

/-! ### Digit strings -/

lemma digitsToNat_foldl (l : List Nat) (a : Nat) :
    l.foldl (fun a d => 10 * a + d) a = a * 10 ^ l.length + digitsToNat l := by
  induction l generalizing a with
  | nil => simp [digitsToNat]
  | cons d t ih =>
      show t.foldl _ (10 * a + d) = _
      rw [ih (10 * a + d)]
      have : digitsToNat (d :: t) = (10 * 0 + d) * 10 ^ t.length + digitsToNat t := by
        unfold digitsToNat
        exact ih (10 * 0 + d)
      rw [this, List.length_cons]
      ring

lemma digitsToNat_cons (d : Nat) (t : List Nat) :
    digitsToNat (d :: t) = d * 10 ^ t.length + digitsToNat t := by
  have h1 : digitsToNat (d :: t) = t.foldl (fun a d => 10 * a + d) (10 * 0 + d) := rfl
  rw [h1, digitsToNat_foldl]
  ring

lemma digitsToNat_append_zeros (l : List Nat) (z : Nat) :
    digitsToNat (l ++ List.replicate z 0) = digitsToNat l * 10 ^ z := by
  induction z with
  | zero => simp [digitsToNat]
  | succ z ih =>
      rw [List.replicate_succ', ← List.append_assoc]
      have h0 : digitsToNat ((l ++ List.replicate z 0) ++ [0])
          = 10 * digitsToNat (l ++ List.replicate z 0) := by
        unfold digitsToNat
        rw [List.foldl_append]
        simp
      rw [h0, ih, pow_succ]
      ring

lemma digitsToNat_lt (l : List Nat) (h : ∀ x ∈ l, x < 10) :
    digitsToNat l < 10 ^ l.length := by
  induction l with
  | nil => simp [digitsToNat]
  | cons d t ih =>
      have hd : d < 10 := h d (List.mem_cons_self d t)
      have ht := ih (fun x hx => h x (List.mem_cons_of_mem _ hx))
      rw [digitsToNat_cons, List.length_cons, pow_succ]
      calc d * 10 ^ t.length + digitsToNat t
          < d * 10 ^ t.length + 10 ^ t.length := by omega
        _ = (d + 1) * 10 ^ t.length := by ring
        _ ≤ 10 * 10 ^ t.length := Nat.mul_le_mul_right _ (by omega)
        _ = 10 ^ t.length * 10 := by ring

/-! ### Limb extraction -/

lemma u64DigitsAux_getD : ∀ (f n k : Nat), n ≤ f →
    (u64DigitsAux f n).getD k 0 = n / 2 ^ (64 * k) % 2 ^ 64 := by
  intro f
  induction f with
  | zero =>
      intro n k hn
      have hn0 : n = 0 := by omega
      subst hn0
      simp [u64DigitsAux]
  | succ f ih =>
      intro n k hn
      match n with
      | 0 => simp [u64DigitsAux]
      | m + 1 =>
        rw [u64DigitsAux]
        cases k with
        | zero => simp
        | succ k =>
            have hdiv : (m + 1) / 2 ^ 64 ≤ f := by
              have := Nat.div_lt_self (Nat.succ_pos m) (by norm_num : 1 < 2 ^ 64)
              omega
            rw [List.getD_cons_succ, ih _ k hdiv, Nat.div_div_eq_div_mul, ← pow_add,
              show 64 + 64 * k = 64 * (k + 1) from by ring]

lemma padTake4_eq (l : List Nat) :
    padTake4 l = [l.getD 0 0, l.getD 1 0, l.getD 2 0, l.getD 3 0] := by
  match l with
  | [] => rfl
  | [_] => rfl
  | [_, _] => rfl
  | [_, _, _] => rfl
  | _ :: _ :: _ :: _ :: _ => rfl

lemma padTake4_length (l : List Nat) : (padTake4 l).length = 4 := by
  rw [padTake4_eq]; rfl

lemma limbsToNat_padTake4 (n : Nat) :
    limbsToNat (padTake4 (toU64Digits n)) = n % 2 ^ 256 := by
  rw [toU64Digits, padTake4_eq,
    u64DigitsAux_getD n n 0 le_rfl, u64DigitsAux_getD n n 1 le_rfl,
    u64DigitsAux_getD n n 2 le_rfl, u64DigitsAux_getD n n 3 le_rfl]
  show n / 2 ^ (64 * 0) % 2 ^ 64 + 2 ^ 64 * (n / 2 ^ (64 * 1) % 2 ^ 64
      + 2 ^ 64 * (n / 2 ^ (64 * 2) % 2 ^ 64
      + 2 ^ 64 * (n / 2 ^ (64 * 3) % 2 ^ 64 + 2 ^ 64 * 0))) = n % 2 ^ 256
  have h256 : (2 : Nat) ^ 256 = 2 ^ 64 * (2 ^ 64 * (2 ^ 64 * 2 ^ 64)) := by norm_num
  rw [h256, Nat.mod_mul, Nat.mod_mul, Nat.mod_mul]
  simp [Nat.div_div_eq_div_mul, ← pow_add]

/-! ### Evaluating the decoder -/

lemma decimalStringToScaledLimbs_eq (d : DecimalUnknown) (os : Option Int)
    (hne : d.digits ≠ []) (hlen : d.valueLen ≤ 255) :
    decimalStringToScaledLimbs d os =
      some (padTake4 (toU64Digits (appendedMagnitude d os)),
        if appendedMagnitude d os = 0 then Sign.noSign
        else if d.neg then Sign.minus else Sign.plus) := by
  have h1 : ¬ 255 < d.valueLen := by omega
  have h2 : (appendedDigits d os).isEmpty = false := by
    cases hd : d.digits with
    | nil => exact absurd hd hne
    | cons a l => simp [appendedDigits, hd]
  simp [decimalStringToScaledLimbs, h1, h2, padTake4_length]

lemma matchDecimal_of_dsts (d : DecimalUnknown) (t : Int) (os : Option Int) (z : Nat)
    (hgl : getLimbsAndSign d t = (decimalStringToScaledLimbs d os).map RResult.ok)
    (hdig : ∀ x ∈ d.digits, x < 10) (hne : d.digits ≠ [])
    (hlen255 : d.valueLen ≤ 255)
    (hzeros : zerosToAppend d os = z)
    (hsize : d.digits.length + z ≤ 75) :
    matchDecimal d t = some (.ok ((d.mathNum * 10 ^ z : Int) : Scalar)) := by
  have hmag : appendedMagnitude d os = digitsToNat d.digits * 10 ^ z := by
    unfold appendedMagnitude appendedDigits
    rw [hzeros, digitsToNat_append_zeros]
  have hsmall : appendedMagnitude d os < 2 ^ 256 := by
    rw [hmag]
    calc digitsToNat d.digits * 10 ^ z
        < 10 ^ d.digits.length * 10 ^ z :=
          mul_lt_mul_of_pos_right (digitsToNat_lt _ hdig) (by positivity)
      _ = 10 ^ (d.digits.length + z) := (pow_add 10 _ _).symm
      _ ≤ 10 ^ 75 := Nat.pow_le_pow_right (by norm_num) hsize
      _ < 2 ^ 256 := by norm_num
  have hlimbs : limbsToNat (padTake4 (toU64Digits (appendedMagnitude d os)))
      = appendedMagnitude d os := by
    rw [limbsToNat_padTake4, Nat.mod_eq_of_lt hsmall]
  have hdsts := decimalStringToScaledLimbs_eq d os hne hlen255
  rw [hmag] at hlimbs hdsts
  unfold matchDecimal
  rw [hgl, hdsts]
  by_cases h0 : digitsToNat d.digits * 10 ^ z = 0
  · have hd0 : digitsToNat d.digits = 0 := by
      rcases Nat.mul_eq_zero.mp h0 with h | h
      · exact h
      · exact absurd h (by positivity)
    simp only [if_pos h0, Option.map_some', hlimbs]
    unfold DecimalUnknown.mathNum
    rw [hd0]
    simp [h0, limbsToNat_padTake4]
  · cases hneg : d.neg with
    | true =>
        simp only [if_neg h0, hneg, Option.map_some', hlimbs]
        unfold DecimalUnknown.mathNum
        rw [hneg]
        simp only [Option.some.injEq, RResult.ok.injEq]
        push_cast
        ring
    | false =>
        simp only [if_neg h0, hneg, Option.map_some', hlimbs]
        unfold DecimalUnknown.mathNum
        rw [hneg]
        simp only [Option.some.injEq, RResult.ok.injEq]
        push_cast
        ring

/-- Core exactness lemma for `match_decimal`: under the safe-widening
precondition strengthened with the text-length bound, matching succeeds and
the result is exactly the literal's integer value with `t - scale` zeros
appended, as a field element. -/
lemma matchDecimal_exact_aux (d : DecimalUnknown) (t : Int) (hwf : d.wf)
    (hst : d.scale ≤ t)
    (hprec : d.precision + (t - d.scale).toNat ≤ 75)
    (hlen : d.valueLen + (t - d.scale).toNat ≤ 75) :
    matchDecimal d t =
      some (.ok ((d.mathNum * 10 ^ (t - d.scale).toNat : Int) : Scalar)) := by
  obtain ⟨hdig, hne, hp, hs0, hs127, _⟩ := hwf
  have hplen : 1 ≤ d.digits.length := List.length_pos.mpr hne
  have hvlen : d.digits.length ≤ d.valueLen := Nat.le_add_right _ _
  set z : Nat := (t - d.scale).toNat with hz
  have ht0 : 0 ≤ t := le_trans hs0 hst
  have ht256 : t < 256 := by omega
  have hasU8t : asU8 t = t.toNat := asU8_eq_toNat ht0 ht256
  have hasU8s : asU8 d.scale = d.scale.toNat := asU8_eq_toNat hs0 (by omega)
  have hlen255 : d.valueLen ≤ 255 := by omega
  have hgate1 : ¬ MAX_SUPPORTED_PRECISION < d.precision := by
    unfold MAX_SUPPORTED_PRECISION; omega
  have hgate2 : ¬ t < d.scale := by omega
  by_cases hlt : d.scale < t
  · have hsub : u8wsub (asU8 t) (asU8 d.scale) = z := by
      rw [hasU8t, hasU8s, u8wsub_eq (by omega) (by omega)]
      omega
    have hcond : d.scale < t ∧
        u8satAdd d.precision (u8wsub (asU8 t) (asU8 d.scale))
          ≤ MAX_SUPPORTED_PRECISION := by
      refine ⟨hlt, ?_⟩
      rw [hsub]
      unfold u8satAdd MAX_SUPPORTED_PRECISION
      omega
    have hgl : getLimbsAndSign d t
        = (decimalStringToScaledLimbs d (some t)).map RResult.ok := by
      unfold getLimbsAndSign
      rw [if_neg hgate1, if_neg hgate2, if_pos hcond]
    have hzeros : zerosToAppend d (some t) = z := by
      unfold zerosToAppend
      simp only [Option.getD_some]
      rw [hasU8t, hasU8s]
      omega
    exact matchDecimal_of_dsts d t (some t) z hgl hdig hne hlen255 hzeros (by omega)
  · have hts : t = d.scale := le_antisymm (by omega) hst
    have hz0 : z = 0 := by omega
    have hgl : getLimbsAndSign d t
        = (decimalStringToScaledLimbs d none).map RResult.ok := by
      unfold getLimbsAndSign
      rw [if_neg hgate1, if_neg hgate2, if_neg (by tauto), if_neg (by tauto)]
    have hzeros : zerosToAppend d none = z := by
      unfold zerosToAppend
      simp only [Option.getD_none]
      rw [hz0]
      unfold asU8
      omega
    exact matchDecimal_of_dsts d t none z hgl hdig hne hlen255 hzeros (by omega)

/-! ## Claim theorems -/

/-- C7: for every field element `s` and scale factor `k`, `scale_scalar(s, k)`
fails with `DecimalRoundingError` exactly when `k < 0`, and otherwise returns
`s * 10^k`, computed by `k` repeated multiplications by the field element 10,
with no overflow detection (the field wraps). -/
theorem scaleScalar_spec (s : Scalar) (k : Int) :
    scaleScalar s k =
      if k < 0 then .err (.DecimalRoundingError "Scale factor must be non-negative")
      else .ok (s * 10 ^ k.toNat) := by
  unfold scaleScalar
  split
  · rfl
  · rw [scalePow_eq]

/-- C8: for every field element `x` and scale factors `a, b ≥ 0`, applying
`scale_scalar` twice composes additively:
`scale_scalar(scale_scalar(x, a), b) = scale_scalar(x, a + b)`. -/
theorem scaleScalar_additive (x : Scalar) (a b : Int) (ha : 0 ≤ a) (hb : 0 ≤ b) :
    (scaleScalar x a).bind (fun y => scaleScalar y b) = scaleScalar x (a + b) := by
  unfold scaleScalar
  rw [if_neg (by omega)]
  simp only [RResult.bind]
  rw [if_neg (by omega), if_neg (by omega)]
  rw [scalePow_eq, scalePow_eq, scalePow_eq,
    show (a + b).toNat = a.toNat + b.toNat from by omega, pow_add]
  ring_nf

/-- Witness for C8 at `x = 7`, `a = 2`, `b = 3`. -/
theorem scaleScalar_additive_witness :
    (scaleScalar 7 2).bind (fun y => scaleScalar y 3) = scaleScalar 7 5 := by
  have h := scaleScalar_additive 7 2 3 (by norm_num) (by norm_num)
  norm_num at h
  exact h

/-- C6: for every `u8` value `v`, `Precision::new(v)` succeeds exactly when
`1 ≤ v ≤ 75`, deserialization routes through the constructor (so it rejects
every out-of-range raw value with the constructor's own error), and any
observable `Precision` has its value inside `[1, 75]`. -/
theorem precision_new_spec (v : Nat) (hv : v ≤ 255) :
    (Precision.new v = .ok ⟨v⟩ ↔ 1 ≤ v ∧ v ≤ 75) ∧
    (Precision.new v = .err "Precision must be larger than zero and less than 76"
      ↔ v = 0 ∨ 75 < v) ∧
    Precision.deserialize v = Precision.new v ∧
    (∀ p, Precision.new v = .ok p → 1 ≤ p.value ∧ p.value ≤ 75) := by
  unfold Precision.deserialize Precision.new MAX_SUPPORTED_PRECISION
  by_cases h : 75 < v ∨ v = 0
  · rw [if_pos h]
    refine ⟨?_, ?_, rfl, ?_⟩
    · constructor
      · intro hc
        exact RResult.noConfusion hc
      · intro hc
        omega
    · constructor
      · intro _
        omega
      · intro _
        rfl
    · intro p hp
      exact RResult.noConfusion hp
  · rw [if_neg h]
    refine ⟨?_, ?_, rfl, ?_⟩
    · constructor
      · intro _
        omega
      · intro _
        rfl
    · constructor
      · intro hc
        exact RResult.noConfusion hc
      · intro hc
        exfalso
        omega
    · intro p hp
      cases hp
      show 1 ≤ v ∧ v ≤ 75
      omega

/-- Witness for C6 at the boundary values 0, 75, 76 and 255. -/
theorem precision_new_spec_witness :
    Precision.new 0 = .err "Precision must be larger than zero and less than 76" ∧
    Precision.new 76 = .err "Precision must be larger than zero and less than 76" ∧
    Precision.new 255 = .err "Precision must be larger than zero and less than 76" ∧
    Precision.new 75 = .ok ⟨75⟩ ∧
    Precision.deserialize 255 = Precision.new 255 := by
  refine ⟨?_, ?_, ?_, ?_, (precision_new_spec 255 (by norm_num)).2.2.1⟩
  · exact (precision_new_spec 0 (by norm_num)).2.1.mpr (Or.inl rfl)
  · exact (precision_new_spec 76 (by norm_num)).2.1.mpr (Or.inr (by norm_num))
  · exact (precision_new_spec 255 (by norm_num)).2.1.mpr (Or.inr (by norm_num))
  · exact (precision_new_spec 75 (by norm_num)).1.mpr (by norm_num)

/-- C9: `Decimal::from_i64(v, p, s)` succeeds exactly when `p ≥ 19`, `s ≥ 0`
and `p ≥ 19 + s`; on success the value is the field element of `v` times
`10^s` with precision `p` and scale `s`, and otherwise a typed
`DecimalRoundingError` is returned. -/
theorem fromI64_spec (v : Int) (p : Precision) (s : Int)
    (hp : p.value ≤ 255) (hs1 : -128 ≤ s) (hs2 : s ≤ 127) :
    Decimal.fromI64 v p s =
      if 19 ≤ p.value ∧ 0 ≤ s ∧ 19 + s ≤ (p.value : Int) then
        .ok ⟨(v : Scalar) * 10 ^ s.toNat, p, s⟩
      else if p.value < 19 then
        .err (.DecimalRoundingError "Precision must be at least 19")
      else
        .err (.DecimalRoundingError "Can not scale down a decimal") := by
  unfold Decimal.fromI64
  by_cases h1 : p.value < 19
  · rw [if_pos h1, if_neg (by omega), if_pos h1]
  · rw [if_neg h1]
    by_cases h2 : s < 0
    · rw [if_pos (Or.inl h2), if_neg (by omega), if_neg h1]
    · have ha : asU8 s = s.toNat := asU8_eq_toNat (by omega) (by omega)
      rw [ha, show (19 + s.toNat) % 256 = 19 + s.toNat from by omega]
      by_cases h3 : p.value < 19 + s.toNat
      · rw [if_pos (Or.inr h3), if_neg (by omega), if_neg h1]
      · rw [if_neg (by omega), if_pos (by omega)]
        unfold scaleScalar
        rw [if_neg (by omega)]
        simp only [RResult.bind, RResult.ok.injEq]
        rw [scalePow_eq]

/-- Witness for C9: `from_i64(-91, precision 21, scale 2)` yields the field
element `-9100`. -/
theorem fromI64_spec_witness :
    Decimal.fromI64 (-91) ⟨21⟩ 2 = .ok ⟨((-9100 : Int) : Scalar), ⟨21⟩, 2⟩ := by
  have h := fromI64_spec (-91) ⟨21⟩ 2 (by norm_num) (by norm_num) (by norm_num)
  rw [h, if_pos (by norm_num)]
  decide

/-- C5 counterexample: for the decimal at scale 127 rescaled to scale -128,
the mathematical scale factor is `-255 < 0`, so the claim demands failure
with `DecimalRoundingError`; but the `i8` subtraction wraps `-255` to `1` and
the call succeeds, multiplying the value by ten. -/
theorem withPrecisionAndScale_wrap_cex :
    ((-128 : Int) - 127 < 0) ∧
    Decimal.withPrecisionAndScale ⟨(1 : Scalar), ⟨1⟩, 127⟩ ⟨75⟩ (-128) =
      .ok ⟨(10 : Scalar), ⟨75⟩, -128⟩ := by
  exact ⟨by norm_num, by decide⟩

/-- C5 (amended): whenever `new_scale - d.scale` does not overflow `i8`
(and the `Precision` invariant `d.precision ≤ 75` holds),
`with_precision_and_scale` fails with `DecimalRoundingError` exactly when
`scale_factor < 0` or `new_precision < d.precision + scale_factor`, and
otherwise returns the value scaled by `10^scale_factor` at the new precision
and scale. -/
theorem withPrecisionAndScale_spec (d : Decimal) (np : Precision) (ns : Int)
    (hp : d.precision.value ≤ 75)
    (h1 : -128 ≤ ns - d.scale) (h2 : ns - d.scale ≤ 127) :
    d.withPrecisionAndScale np ns =
      if ns - d.scale < 0 ∨ (np.value : Int) < d.precision.value + (ns - d.scale) then
        .err (.DecimalRoundingError "Scale factor must be non-negative")
      else .ok ⟨d.value * 10 ^ (ns - d.scale).toNat, np, ns⟩ := by
  unfold Decimal.withPrecisionAndScale
  rw [i8wrap_eq h1 h2]
  by_cases hc : ns - d.scale < 0
  · have hcond : ns - d.scale < 0 ∨
        np.value < (d.precision.value + asU8 (ns - d.scale)) % 256 := Or.inl hc
    simp only [if_pos hcond, if_pos (Or.inl hc)]
  · have ha : asU8 (ns - d.scale) = (ns - d.scale).toNat :=
      asU8_eq_toNat (by omega) (by omega)
    rw [ha, show (d.precision.value + (ns - d.scale).toNat) % 256
        = d.precision.value + (ns - d.scale).toNat from by omega]
    by_cases hc2 : np.value < d.precision.value + (ns - d.scale).toNat
    · rw [if_pos (Or.inr hc2), if_pos (Or.inr (by omega))]
    · rw [if_neg (by omega), if_neg (by omega)]
      unfold scaleScalar
      rw [if_neg (by omega)]
      simp only [RResult.bind, RResult.ok.injEq]
      rw [scalePow_eq]

/-- Witness for C5: scaling `-134` from `(19, 4)` to `(25, 9)` yields
`-13400000` (the crate's own test), and a same-`(p, s)` rescale is a no-op. -/
theorem withPrecisionAndScale_spec_witness :
    Decimal.withPrecisionAndScale ⟨((-134 : Int) : Scalar), ⟨19⟩, 4⟩ ⟨25⟩ 9 =
      .ok ⟨((-13400000 : Int) : Scalar), ⟨25⟩, 9⟩ ∧
    Decimal.withPrecisionAndScale ⟨(100 : Scalar), ⟨19⟩, 4⟩ ⟨19⟩ 4 =
      .ok ⟨(100 : Scalar), ⟨19⟩, 4⟩ := by
  constructor
  · have h := withPrecisionAndScale_spec ⟨((-134 : Int) : Scalar), ⟨19⟩, 4⟩ ⟨25⟩ 9
      (by norm_num) (by norm_num) (by norm_num)
    rw [h, if_neg (by norm_num)]
    decide
  · have h := withPrecisionAndScale_spec ⟨(100 : Scalar), ⟨19⟩, 4⟩ ⟨19⟩ 4
      (by norm_num) (by norm_num) (by norm_num)
    rw [h, if_neg (by norm_num)]
    decide

/-- C10: whenever the decoder returns, it returns exactly 4 little-endian
64-bit limbs holding the zero-appended magnitude reduced modulo `2^256`:
below `2^256` the encoding is exact, and otherwise the high words are
silently dropped. -/
theorem decimalStringToScaledLimbs_limbs_spec (d : DecimalUnknown)
    (os : Option Int) (limbs : List Nat) (sign : Sign)
    (h : decimalStringToScaledLimbs d os = some (limbs, sign)) :
    limbs.length = 4 ∧
    limbsToNat limbs = appendedMagnitude d os % 2 ^ 256 ∧
    (appendedMagnitude d os < 2 ^ 256 → limbsToNat limbs = appendedMagnitude d os) := by
  unfold decimalStringToScaledLimbs at h
  by_cases h1 : 255 < d.valueLen
  · rw [if_pos h1] at h
    cases h
  · rw [if_neg h1] at h
    by_cases h2 : (appendedDigits d os).isEmpty
    · rw [if_pos h2] at h
      cases h
    · rw [if_neg h2] at h
      simp only [padTake4_length, if_pos, Option.some.injEq, Prod.mk.injEq] at h
      have hl : limbs = padTake4 (toU64Digits (appendedMagnitude d os)) := h.1.symm
      refine ⟨?_, ?_, ?_⟩
      · rw [hl]
        exact padTake4_length _
      · rw [hl, limbsToNat_padTake4]
      · intro hlt
        rw [hl, limbsToNat_padTake4, Nat.mod_eq_of_lt hlt]

/-- Witness for C10 at the literal `123` decoded without a target scale. -/
theorem decimalStringToScaledLimbs_limbs_spec_witness :
    limbsToNat [123, 0, 0, 0] =
      appendedMagnitude ⟨false, [1, 2, 3], 3, 0⟩ none % 2 ^ 256 := by
  have h := decimalStringToScaledLimbs_limbs_spec ⟨false, [1, 2, 3], 3, 0⟩ none
    [123, 0, 0, 0] Sign.plus (by decide)
  exact h.2.1

/-- C4 counterexample: the decoder aborts on a well-formed (parser-consistent)
256-digit literal — the `u8` cast of `value.len()` panics — so malformed
literal text is not its only abort path, and well-formed texts longer than
255 characters are not handled. -/
theorem decimalStringToScaledLimbs_long_cex :
    DecimalUnknown.wf ⟨false, List.replicate 256 1, 256, 0⟩ ∧
    decimalStringToScaledLimbs ⟨false, List.replicate 256 1, 256, 0⟩ none = none := by
  exact ⟨by decide, by decide⟩

/-- C4 (amended): for every literal with nonempty digit text of at most 255
characters, `match_decimal` never aborts for any target scale: it returns
`Ok` or a typed error. -/
theorem matchDecimal_no_abort (d : DecimalUnknown) (t : Int)
    (hne : d.digits ≠ []) (hlen : d.valueLen ≤ 255) :
    matchDecimal d t ≠ none := by
  have hgl : getLimbsAndSign d t ≠ none := by
    unfold getLimbsAndSign
    split_ifs
    · simp
    · simp
    · rw [decimalStringToScaledLimbs_eq d _ hne hlen]
      simp
    · simp
    · rw [decimalStringToScaledLimbs_eq d _ hne hlen]
      simp
  intro hc
  unfold matchDecimal at hc
  cases h : getLimbsAndSign d t with
  | none => exact hgl h
  | some r =>
      rw [h] at hc
      rcases r with ⟨limbs, sign⟩ | e
      · simp at hc
      · simp at hc

/-- Witness for C4 (amended) at the literal `123.45` and target scale 2. -/
theorem matchDecimal_no_abort_witness :
    matchDecimal ⟨false, [1, 2, 3, 4, 5], 5, 2⟩ 2 ≠ none :=
  matchDecimal_no_abort ⟨false, [1, 2, 3, 4, 5], 5, 2⟩ 2 (by decide) (by decide)

/-- C3 counterexample: a literal with declared precision 76 and scale 1,
matched against target scale 0 (so target < source scale), is rejected with
`PrecisionParseError` — not `DecimalRoundingError` as the claim states for
any precision. -/
theorem matchDecimal_scale_down_cex :
    DecimalUnknown.wf ⟨false, List.replicate 76 9, 76, 1⟩ ∧
    ((0 : Int) < 1) ∧
    matchDecimal ⟨false, List.replicate 76 9, 76, 1⟩ 0 =
      some (.err (.PrecisionParseError
        "Error while attempting decimal match: max precision exceeded")) := by
  exact ⟨by decide, by norm_num, by decide⟩

/-- C3 (amended): a source whose declared scale exceeds the requested target
scale is never accepted, for any precision; it fails with
`DecimalRoundingError` whenever the declared precision is within the
supported maximum of 75 (and with `PrecisionParseError` otherwise). -/
theorem matchDecimal_scale_down_rejected (d : DecimalUnknown) (t : Int)
    (hts : t < d.scale) :
    (∀ r : Scalar, matchDecimal d t ≠ some (.ok r)) ∧
    (d.precision ≤ 75 →
      matchDecimal d t = some (.err (.DecimalRoundingError
        ("matching decimal would cause precision overflow: incoming scale() = "
          ++ toString d.scale ++ " is greater than db scale = " ++ toString t)))) := by
  constructor
  · intro r
    unfold matchDecimal getLimbsAndSign
    by_cases h1 : MAX_SUPPORTED_PRECISION < d.precision
    · rw [if_pos h1]
      simp
    · rw [if_neg h1, if_pos hts]
      simp
  · intro hp
    unfold matchDecimal getLimbsAndSign
    rw [if_neg (by unfold MAX_SUPPORTED_PRECISION; omega), if_pos hts]

/-- Witness for C3 (amended): `361.0004` matched against target scale 1
(the crate's own rounding test). -/
theorem matchDecimal_scale_down_rejected_witness :
    matchDecimal ⟨false, [3, 6, 1, 0, 0, 0, 4], 7, 4⟩ 1 =
      some (.err (.DecimalRoundingError
        ("matching decimal would cause precision overflow: incoming scale() = "
          ++ toString (4 : Int) ++ " is greater than db scale = " ++ toString (1 : Int)))) := by
  have h := matchDecimal_scale_down_rejected ⟨false, [3, 6, 1, 0, 0, 0, 4], 7, 4⟩ 1
    (by norm_num)
  exact h.2 (by norm_num)

/-- C1 counterexample: the literal `-1` (precision 1, scale 0) at target
scale 74 satisfies the claim's precondition (`0 ≤ 74` and
`1 + 74 ≤ 75`), but the decoder clamps the appended zeros to the 75-character
budget including the sign character, producing `-10^73` instead of the
claimed `-10^74`. -/
theorem matchDecimal_widen_cex :
    DecimalUnknown.wf ⟨true, [1], 1, 0⟩ ∧
    ((0 : Int) ≤ 74) ∧ (1 + ((74 : Int) - 0).toNat ≤ 75) ∧
    matchDecimal ⟨true, [1], 1, 0⟩ 74 ≠
      some (.ok ((((-1) * 10 ^ 74 : Int)) : Scalar)) := by
  exact ⟨by decide, by norm_num, by decide, by decide⟩

/-- C1 (amended): under the safe-widening precondition `t ≥ D.scale` and
`D.precision + (t - D.scale) ≤ 75`, strengthened by the text-length bound
`value().len() + (t - D.scale) ≤ 75` (automatic for non-negative literals,
whose text length is their digit count, but strictly stronger for negative
ones whose sign character occupies one of the 75 characters),
`match_decimal` succeeds and returns exactly the literal's value scaled by
`10^(t - D.scale)`: the integer obtained by appending `t - D.scale` zeros to
the point-removed digits, negated when the literal is negative. -/
theorem matchDecimal_widen_exact (d : DecimalUnknown) (t : Int) (hwf : d.wf)
    (hst : d.scale ≤ t)
    (hprec : d.precision + (t - d.scale).toNat ≤ 75)
    (hlen : d.valueLen + (t - d.scale).toNat ≤ 75) :
    matchDecimal d t =
      some (.ok ((d.mathNum * 10 ^ (t - d.scale).toNat : Int) : Scalar)) :=
  matchDecimal_exact_aux d t hwf hst hprec hlen

/-- Witness for C1 (amended): `123.45` widened to target scale 3 yields the
field element `123450`. -/
theorem matchDecimal_widen_exact_witness :
    matchDecimal ⟨false, [1, 2, 3, 4, 5], 5, 2⟩ 3 =
      some (.ok ((123450 : Nat) : Scalar)) := by
  have h := matchDecimal_widen_exact ⟨false, [1, 2, 3, 4, 5], 5, 2⟩ 3
    (by decide) (by decide) (by decide) (by decide)
  rw [h]
  decide

/-- C2 counterexample: `-1` at `(precision 1, scale 0)` and `-1.000…0`
(74 fractional zeros) at `(precision 75, scale 74)` denote the same value and
both satisfy the claim's safe-widening precondition for target scale 74, yet
they map to different field elements (`-10^73` versus `-10^74`). -/
theorem matchDecimal_value_congr_cex :
    DecimalUnknown.wf ⟨true, [1], 1, 0⟩ ∧
    DecimalUnknown.wf ⟨true, 1 :: List.replicate 74 0, 75, 74⟩ ∧
    (1 + ((74 : Int) - 0).toNat ≤ 75) ∧ (75 + ((74 : Int) - 74).toNat ≤ 75) ∧
    DecimalUnknown.mathNum ⟨true, [1], 1, 0⟩ * 10 ^ ((74 : Int)).toNat =
      DecimalUnknown.mathNum ⟨true, 1 :: List.replicate 74 0, 75, 74⟩ * 10 ^ ((0 : Int)).toNat ∧
    matchDecimal ⟨true, [1], 1, 0⟩ 74 ≠
      matchDecimal ⟨true, 1 :: List.replicate 74 0, 75, 74⟩ 74 := by
  exact ⟨by decide, by decide, by decide, by decide, by decide, by decide⟩

/-- C2 (amended): two well-formed literals denoting the same mathematical
value, each satisfying the safe-widening precondition strengthened with the
text-length bound of C1, are both matched successfully to the same field
element at any common target scale. -/
theorem matchDecimal_value_congr (d1 d2 : DecimalUnknown) (t : Int)
    (h1 : d1.wf) (h2 : d2.wf)
    (hs1 : d1.scale ≤ t) (hs2 : d2.scale ≤ t)
    (hp1 : d1.precision + (t - d1.scale).toNat ≤ 75)
    (hp2 : d2.precision + (t - d2.scale).toNat ≤ 75)
    (hl1 : d1.valueLen + (t - d1.scale).toNat ≤ 75)
    (hl2 : d2.valueLen + (t - d2.scale).toNat ≤ 75)
    (hval : d1.mathNum * 10 ^ d2.scale.toNat = d2.mathNum * 10 ^ d1.scale.toNat) :
    ∃ s : Scalar, matchDecimal d1 t = some (.ok s) ∧ matchDecimal d2 t = some (.ok s) := by
  have hs01 : 0 ≤ d1.scale := h1.2.2.2.1
  have hs02 : 0 ≤ d2.scale := h2.2.2.2.1
  have e1 := matchDecimal_exact_aux d1 t h1 hs1 hp1 hl1
  have e2 := matchDecimal_exact_aux d2 t h2 hs2 hp2 hl2
  have hint : d1.mathNum * 10 ^ (t - d1.scale).toNat
      = d2.mathNum * 10 ^ (t - d2.scale).toNat := by
    have h10 : (10 : Int) ^ (d1.scale.toNat + d2.scale.toNat) ≠ 0 := by positivity
    apply mul_right_cancel₀ h10
    have ea : (t - d1.scale).toNat + (d1.scale.toNat + d2.scale.toNat)
        = d2.scale.toNat + t.toNat := by omega
    have eb : (t - d2.scale).toNat + (d1.scale.toNat + d2.scale.toNat)
        = d1.scale.toNat + t.toNat := by omega
    calc d1.mathNum * 10 ^ (t - d1.scale).toNat * 10 ^ (d1.scale.toNat + d2.scale.toNat)
        = d1.mathNum * 10 ^ ((t - d1.scale).toNat + (d1.scale.toNat + d2.scale.toNat)) := by
          rw [mul_assoc, ← pow_add]
      _ = d1.mathNum * 10 ^ (d2.scale.toNat + t.toNat) := by rw [ea]
      _ = d1.mathNum * 10 ^ d2.scale.toNat * 10 ^ t.toNat := by rw [pow_add, ← mul_assoc]
      _ = d2.mathNum * 10 ^ d1.scale.toNat * 10 ^ t.toNat := by rw [hval]
      _ = d2.mathNum * 10 ^ (d1.scale.toNat + t.toNat) := by rw [pow_add, ← mul_assoc]
      _ = d2.mathNum * 10 ^ ((t - d2.scale).toNat + (d1.scale.toNat + d2.scale.toNat)) := by
          rw [eb]
      _ = d2.mathNum * 10 ^ (t - d2.scale).toNat * 10 ^ (d1.scale.toNat + d2.scale.toNat) := by
          rw [mul_assoc, ← pow_add]
  refine ⟨_, e1, ?_⟩
  rw [e2, hint]

/-- Witness for C2 (amended): `123.45` at `(5, 2)` and `123.450` at `(6, 3)`
both match target scale 4 to the same field element. -/
theorem matchDecimal_value_congr_witness :
    matchDecimal ⟨false, [1, 2, 3, 4, 5], 5, 2⟩ 4 =
      matchDecimal ⟨false, [1, 2, 3, 4, 5, 0], 6, 3⟩ 4 ∧
    matchDecimal ⟨false, [1, 2, 3, 4, 5], 5, 2⟩ 4 =
      some (.ok ((1234500 : Nat) : Scalar)) := by
  obtain ⟨s, ha, hb⟩ := matchDecimal_value_congr
    ⟨false, [1, 2, 3, 4, 5], 5, 2⟩ ⟨false, [1, 2, 3, 4, 5, 0], 6, 3⟩ 4
    (by decide) (by decide) (by decide) (by decide) (by decide) (by decide)
    (by decide) (by decide) (by decide)
  exact ⟨ha.trans hb.symm, by decide⟩
